import Mathlib

/-!
Verification development for the `uv-config` repository
(`src/uv_config/core.py` and `src/uv_config/cli.py`).

The Python code is shallowly embedded: the generic nested mappings produced
by the format loaders (`tomlkit.parse`, `ruamel.yaml` safe load,
`json.loads`) are modelled by the inductive type `Value`; the pydantic
models of `core.py` are modelled by executable validators over `Value`;
each CLI command of `cli.py` is modelled by a pure function returning the
lines it prints, the files it writes and its exit code.

Behaviour of the third-party libraries the code calls (tomlkit, pydantic,
dynaconf, typer, `json.loads`, `inspect.getdoc`) is modelled at the
boundary actually exercised by the code; every such modelling decision is
recorded in the doc comment of the corresponding definition.
-/

namespace UvConfig

/-- Generic decoded value, as produced by `load_any` in `core.py`:
nested mappings (Python `dict`, string keys, insertion-ordered), ordered
sequences, booleans, integers, strings and `None`.  Mappings are modelled
as insertion-ordered association lists, matching Python dicts. -/
inductive Value where
  | vnull : Value
  | vbool (b : Bool) : Value
  | vint (n : Int) : Value
  | vstr (s : String) : Value
  | varr (xs : List Value) : Value
  | vobj (fields : List (String × Value)) : Value

/-- `d[k]` lookup on a Python dict (association list). -/
def objGet : List (String × Value) → String → Option Value
  | [], _ => none
  | (k, v) :: rest, key => if k = key then some v else objGet rest key

/-- `d[k] = val` on a Python dict: replace in place when the key exists
(keeping its position), append otherwise. -/
def objSet : List (String × Value) → String → Value → List (String × Value)
  | [], key, val => [(key, val)]
  | (k, v) :: rest, key, val =>
      if k = key then (k, val) :: rest else (k, v) :: objSet rest key val

/-- Is this value a Python dict? -/
def Value.isObj : Value → Bool
  | .vobj _ => true
  | _ => false

/-- Lookup along a path of keys, descending through nested mappings. -/
def vGetPath : Value → List String → Option Value
  | v, [] => some v
  | .vobj fs, k :: ks =>
      match objGet fs k with
      | some v => vGetPath v ks
      | none => none
  | _, _ :: _ => none

/-- Python `str.lower()` (ASCII lowering; the suffixes and bool-strings the
code lowers are ASCII). -/
def strLower (s : String) : String := String.mk (s.data.map Char.toLower)

/-- Python `str.replace("-", "_")` (single-character pattern). -/
def hyphenToUnderscore (s : String) : String :=
  String.mk (s.data.map fun c => if c = '-' then '_' else c)

/-- Python truthiness of a decoded value (`bool(x)`). -/
def pyTruthy : Value → Bool
  | .vnull => false
  | .vbool b => b
  | .vint n => n != 0
  | .vstr s => s ≠ ""
  | .varr xs => !xs.isEmpty
  | .vobj fs => !fs.isEmpty

/-- Success test on an `Except` result. -/
def exceptIsOk : Except ε α → Bool
  | .ok _ => true
  | .error _ => false

/-- Is `pat` a prefix of `l`? -/
def listPrefixEq : List Char → List Char → Bool
  | [], _ => true
  | _ :: _, [] => false
  | a :: as, b :: bs => a = b && listPrefixEq as bs

/-- Is `needle` a contiguous sublist of the second argument? -/
def listInfixChk (needle : List Char) : List Char → Bool
  | [] => listPrefixEq needle []
  | h :: tl => listPrefixEq needle (h :: tl) || listInfixChk needle tl

/-- Does the printed line mention the given text (substring test)? -/
def strMentions (line v : String) : Bool := listInfixChk v.data line.data

/-! ## The TOML layer (`dump_toml` in `core.py`)

`dump_toml` builds a `tomlkit` document with `doc.update(data)` and writes
`tomlkit.dumps(doc)`; the file is later read back with `tomlkit.parse`.
`TomlValue` models the tomlkit document tree: it is `Value` without
`null`, because TOML has no null and `tomlkit.item(None)` raises
`ValueError` (so `doc.update` raises on any `None` in the data and
nothing is written).  `tomlkit.dumps` followed by `tomlkit.parse` returns
an equal document tree; that library contract is the modelled boundary,
so "loading the written file" is `fromToml` of the dumped tree. -/
inductive TomlValue where
  | tbool (b : Bool) : TomlValue
  | tint (n : Int) : TomlValue
  | tstr (s : String) : TomlValue
  | tarr (xs : List TomlValue) : TomlValue
  | ttable (fields : List (String × TomlValue)) : TomlValue

mutual
/-- `tomlkit.item` on a decoded value: fails on `None` (tomlkit raises
`ValueError: Invalid type <class 'NoneType'>`). -/
def toToml : Value → Except String TomlValue
  | .vnull => .error "ValueError: Invalid type NoneType"
  | .vbool b => .ok (.tbool b)
  | .vint n => .ok (.tint n)
  | .vstr s => .ok (.tstr s)
  | .varr xs =>
      match toTomlList xs with
      | .ok ts => .ok (.tarr ts)
      | .error e => .error e
  | .vobj fs =>
      match toTomlFields fs with
      | .ok ts => .ok (.ttable ts)
      | .error e => .error e

def toTomlList : List Value → Except String (List TomlValue)
  | [] => .ok []
  | x :: xs =>
      match toToml x with
      | .ok t =>
          match toTomlList xs with
          | .ok ts => .ok (t :: ts)
          | .error e => .error e
      | .error e => .error e

def toTomlFields : List (String × Value) → Except String (List (String × TomlValue))
  | [] => .ok []
  | (k, x) :: xs =>
      match toToml x with
      | .ok t =>
          match toTomlFields xs with
          | .ok ts => .ok ((k, t) :: ts)
          | .error e => .error e
      | .error e => .error e
end

mutual
/-- `tomlkit.parse` of the dumped document, as a decoded value
(the dumps/parse pair of tomlkit returns an equal document tree). -/
def fromToml : TomlValue → Value
  | .tbool b => .vbool b
  | .tint n => .vint n
  | .tstr s => .vstr s
  | .tarr xs => .varr (fromTomlList xs)
  | .ttable fs => .vobj (fromTomlFields fs)

def fromTomlList : List TomlValue → List Value
  | [] => []
  | x :: xs => fromToml x :: fromTomlList xs

def fromTomlFields : List (String × TomlValue) → List (String × Value)
  | [] => []
  | (k, x) :: xs => (k, fromToml x) :: fromTomlFields xs
end

/-- `dump_toml(data, dest)` (`core.py` lines 119-125): `tomlkit.document()`
then `doc.update(data)` then write.  `Container.update` requires a mapping
(a non-mapping argument raises before anything is written), and raises on
any `None` inside, via `tomlkit.item`. -/
def dumpToml : Value → Except String TomlValue
  | .vobj fs =>
      match toTomlFields fs with
      | .ok ts => .ok (.ttable ts)
      | .error e => .error e
  | _ => .error "ValueError: document update requires a mapping"


/-! ## The pydantic schema model (`core.py`)

`core.py` declares pydantic-v2 models.  Validation is modelled as
executable functions over `Value`, in pydantic's default lax mode (the
inputs come from parsed files, i.e. plain dicts/lists/scalars).  Errors
are modelled as pydantic reports them: a list of entries, each carrying
the location path of the offending field, a message, and the received
input value. -/

/-- One component of a pydantic error location: a mapping key or a
sequence index. -/
inductive LocKey where
  | k (s : String) : LocKey
  | i (n : Nat) : LocKey
deriving DecidableEq

/-- One pydantic validation error: location path, message, received
input value. -/
structure VErr where
  loc : List LocKey
  msg : String
  input : Value

/-- Prefix every error's location with `p` (descending into a field). -/
def errsUnder (p : List LocKey) (es : List VErr) : List VErr :=
  es.map fun e => ⟨p ++ e.loc, e.msg, e.input⟩

/-- Errors of an `Except` result, `[]` on success. -/
def errsOf : Except (List VErr) α → List VErr
  | .ok _ => []
  | .error es => es

/-- Value of a validated optional field; only consulted when there were
no errors at all. -/
def valOf : Except (List VErr) (Option α) → Option α
  | .ok o => o
  | .error _ => none

/-- Pydantic lax coercion to `bool`: accepts booleans, the usual
bool-strings (case-insensitive) and the integers 0/1. -/
def coerceBool : Value → Except (List VErr) Bool
  | .vbool b => .ok b
  | .vstr s =>
      if strLower s ∈ ["true", "t", "y", "yes", "on", "1"] then .ok true
      else if strLower s ∈ ["false", "f", "n", "no", "off", "0"] then .ok false
      else .error [⟨[], "Input should be a valid boolean", .vstr s⟩]
  | .vint 0 => .ok false
  | .vint 1 => .ok true
  | v => .error [⟨[], "Input should be a valid boolean", v⟩]

/-- Pydantic lax coercion to `str`: accepts strings only. -/
def coerceStr : Value → Except (List VErr) String
  | .vstr s => .ok s
  | v => .error [⟨[], "Input should be a valid string", v⟩]

/-- The values of the `Resolution` enum (`core.py` lines 15-18). -/
def resolutionValues : List String := ["highest", "lowest", "lowest-direct"]

/-- The values of the `Prerelease` enum (`core.py` lines 20-24). -/
def prereleaseValues : List String := ["allow", "disallow", "if-necessary", "explicit"]

/-- The values of the `PythonPreference` enum (`core.py` lines 26-30). -/
def pythonPreferenceValues : List String :=
  ["managed", "system", "only-managed", "only-system"]

/-- Pydantic coercion into a `str`-valued enum: the input must be a string
equal to one of the member values.  With `use_enum_values=True` on
`ToolUv`, the validated field stores the raw string value. -/
def coerceEnum (members : List String) : Value → Except (List VErr) String
  | .vstr s =>
      if s ∈ members then .ok s
      else .error [⟨[], "Input should be one of the enum values", .vstr s⟩]
  | v => .error [⟨[], "Input should be one of the enum values", v⟩]

/-- A required string field of a source model (`git`, `url`, `path`
(string form), `index`). -/
def reqStrField (fs : List (String × Value)) (key : String) :
    Except (List VErr) String :=
  match objGet fs key with
  | none => .error [⟨[LocKey.k key], "Field required", .vobj fs⟩]
  | some v =>
      match coerceStr v with
      | .ok s => .ok s
      | .error es => .error (errsUnder [LocKey.k key] es)

/-- An `Optional[...]` field of a source model: absent or `None` means
`None`; otherwise the coercion must succeed. -/
def optField (coerce : Value → Except (List VErr) α)
    (fs : List (String × Value)) (key : String) :
    Except (List VErr) (Option α) :=
  match objGet fs key with
  | none => .ok none
  | some .vnull => .ok none
  | some v =>
      match coerce v with
      | .ok a => .ok (some a)
      | .error es => .error (errsUnder [LocKey.k key] es)

/-- `GitSource` (`core.py` lines 33-39). -/
structure GitS where
  git : String
  tag : Option String
  branch : Option String
  rev : Option String
  subdirectory : Option String
  marker : Option String

/-- `UrlSource` (`core.py` lines 41-43). -/
structure UrlS where
  url : String
  marker : Option String

/-- `PathSource` (`core.py` lines 45-49). -/
structure PathS where
  path : String
  editable : Option Bool
  package : Option Bool
  marker : Option String

/-- `WorkspaceSource` (`core.py` lines 51-53): note `workspace` is a plain
`bool` with default `True`, not an `Optional`. -/
structure WorkspaceS where
  workspace : Bool
  marker : Option String

/-- `IndexSource` (`core.py` lines 55-58). -/
structure IndexS where
  index : String
  extra : Option String
  marker : Option String

/-- One member of the `Source` union other than the list member
(`core.py` lines 60-67). -/
inductive SingleSource where
  | git (g : GitS) : SingleSource
  | url (u : UrlS) : SingleSource
  | path (p : PathS) : SingleSource
  | workspace (w : WorkspaceS) : SingleSource
  | index (i : IndexS) : SingleSource

/-- A validated `Source`: one entry or an ordered list of entries. -/
inductive SourceVal where
  | one (s : SingleSource) : SourceVal
  | many (xs : List SingleSource) : SourceVal

/-- Validate a mapping as `GitSource` (required `git`, optional
string fields, extra keys ignored — pydantic's default `extra` config). -/
def validateGitSource : Value → Except (List VErr) GitS
  | .vobj fs =>
      let rGit := reqStrField fs "git"
      let rTag := optField coerceStr fs "tag"
      let rBranch := optField coerceStr fs "branch"
      let rRev := optField coerceStr fs "rev"
      let rSub := optField coerceStr fs "subdirectory"
      let rMarker := optField coerceStr fs "marker"
      let errs := errsOf rGit ++ errsOf rTag ++ errsOf rBranch ++ errsOf rRev ++
        errsOf rSub ++ errsOf rMarker
      if errs.isEmpty then
        .ok ⟨(rGit.toOption.getD ""), valOf rTag, valOf rBranch, valOf rRev,
          valOf rSub, valOf rMarker⟩
      else .error errs
  | v => .error [⟨[], "Input should be a valid dictionary or instance of GitSource", v⟩]

/-- Validate a mapping as `UrlSource`. -/
def validateUrlSource : Value → Except (List VErr) UrlS
  | .vobj fs =>
      let rUrl := reqStrField fs "url"
      let rMarker := optField coerceStr fs "marker"
      let errs := errsOf rUrl ++ errsOf rMarker
      if errs.isEmpty then .ok ⟨(rUrl.toOption.getD ""), valOf rMarker⟩
      else .error errs
  | v => .error [⟨[], "Input should be a valid dictionary or instance of UrlSource", v⟩]

/-- Validate a mapping as `PathSource`. -/
def validatePathSource : Value → Except (List VErr) PathS
  | .vobj fs =>
      let rPath := reqStrField fs "path"
      let rEditable := optField coerceBool fs "editable"
      let rPackage := optField coerceBool fs "package"
      let rMarker := optField coerceStr fs "marker"
      let errs := errsOf rPath ++ errsOf rEditable ++ errsOf rPackage ++ errsOf rMarker
      if errs.isEmpty then
        .ok ⟨(rPath.toOption.getD ""), valOf rEditable, valOf rPackage, valOf rMarker⟩
      else .error errs
  | v => .error [⟨[], "Input should be a valid dictionary or instance of PathSource", v⟩]

/-- Validate a mapping as `WorkspaceSource`: `workspace` falls back to its
declared default `True` when the key is absent, so the empty mapping
validates successfully. -/
def validateWorkspaceSource : Value → Except (List VErr) WorkspaceS
  | .vobj fs =>
      let rWs :=
        match objGet fs "workspace" with
        | none => Except.ok true
        | some v =>
            match coerceBool v with
            | .ok b => .ok b
            | .error es => .error (errsUnder [LocKey.k "workspace"] es)
      let rMarker := optField coerceStr fs "marker"
      let errs := errsOf rWs ++ errsOf rMarker
      if errs.isEmpty then .ok ⟨(rWs.toOption.getD true), valOf rMarker⟩
      else .error errs
  | v =>
      .error [⟨[], "Input should be a valid dictionary or instance of WorkspaceSource", v⟩]

/-- Validate a mapping as `IndexSource`. -/
def validateIndexSource : Value → Except (List VErr) IndexS
  | .vobj fs =>
      let rIndex := reqStrField fs "index"
      let rExtra := optField coerceStr fs "extra"
      let rMarker := optField coerceStr fs "marker"
      let errs := errsOf rIndex ++ errsOf rExtra ++ errsOf rMarker
      if errs.isEmpty then
        .ok ⟨(rIndex.toOption.getD ""), valOf rExtra, valOf rMarker⟩
      else .error errs
  | v => .error [⟨[], "Input should be a valid dictionary or instance of IndexSource", v⟩]

/-- Validation of the non-list members of the `Source` union, in
declaration order.  Pydantic's smart union settles on a successful member
(tried in order here); when every member fails it reports the errors of
all members, each under the member's tag. -/
def validateSingleSource (v : Value) : Except (List VErr) SingleSource :=
  match validateGitSource v with
  | .ok g => .ok (.git g)
  | .error e1 =>
    match validateUrlSource v with
    | .ok u => .ok (.url u)
    | .error e2 =>
      match validatePathSource v with
      | .ok p => .ok (.path p)
      | .error e3 =>
        match validateWorkspaceSource v with
        | .ok w => .ok (.workspace w)
        | .error e4 =>
          match validateIndexSource v with
          | .ok i => .ok (.index i)
          | .error e5 =>
            .error (errsUnder [LocKey.k "GitSource"] e1 ++
              errsUnder [LocKey.k "UrlSource"] e2 ++
              errsUnder [LocKey.k "PathSource"] e3 ++
              errsUnder [LocKey.k "WorkspaceSource"] e4 ++
              errsUnder [LocKey.k "IndexSource"] e5)

/-- Validate the elements of a list-shaped source entry, collecting errors
with their indices. -/
def validateSourceList : Nat → List Value → Except (List VErr) (List SingleSource)
  | _, [] => .ok []
  | idx, v :: vs =>
      let r := validateSingleSource v
      let rest := validateSourceList (idx + 1) vs
      match r, rest with
      | .ok s, .ok ss => .ok (s :: ss)
      | _, _ =>
          .error (errsUnder [LocKey.k "list", LocKey.i idx] (errsOf r) ++ errsOf rest)

/-- Validate one value of the `sources` mapping against the `Source`
union: a list input can only match the list member; anything else is
validated against the five model members. -/
def validateSource : Value → Except (List VErr) SourceVal
  | .varr xs =>
      match validateSourceList 0 xs with
      | .ok ss => .ok (.many ss)
      | .error es => .error es
  | v =>
      match validateSingleSource v with
      | .ok s => .ok (.one s)
      | .error es => .error es

/-- The member errors the `Source` union reports for the entry value
`"x"` (a bare string matches no member). -/
def c1WitnessErrs : List VErr :=
  [⟨[LocKey.k "GitSource"],
    "Input should be a valid dictionary or instance of GitSource", .vstr "x"⟩,
   ⟨[LocKey.k "UrlSource"],
    "Input should be a valid dictionary or instance of UrlSource", .vstr "x"⟩,
   ⟨[LocKey.k "PathSource"],
    "Input should be a valid dictionary or instance of PathSource", .vstr "x"⟩,
   ⟨[LocKey.k "WorkspaceSource"],
    "Input should be a valid dictionary or instance of WorkspaceSource", .vstr "x"⟩,
   ⟨[LocKey.k "IndexSource"],
    "Input should be a valid dictionary or instance of IndexSource", .vstr "x"⟩]

/-- Validate the `sources` field value: a mapping from dependency name to
`Source`, collecting the errors of every entry under `sources.<name>`
(the `<name>` component is added here; the caller adds `sources`). -/
def coerceSources : Value → Except (List VErr) (List (String × SourceVal))
  | .vobj fs => coerceSourcesEntries fs
  | v => .error [⟨[], "Input should be a valid dictionary", v⟩]
where
  coerceSourcesEntries : List (String × Value) →
      Except (List VErr) (List (String × SourceVal))
    | [] => .ok []
    | (name, v) :: rest =>
        let r := validateSource v
        let rs := coerceSourcesEntries rest
        match r, rs with
        | .ok s, .ok ss => .ok ((name, s) :: ss)
        | _, _ => .error (errsUnder [LocKey.k name] (errsOf r) ++ errsOf rs)

/-- The validated `ToolUv` model (`core.py` lines 70-89).  `use_enum_values`
stores enum fields as their raw string values; `extra="allow"` keeps the
unrecognized keys of the input. -/
structure ToolUvModel where
  package : Option Bool
  managed : Option Bool
  required_version : Option String
  resolution : Option String
  prerelease : Option String
  python_preference : Option String
  sources : Option (List (String × SourceVal))
  extra : List (String × Value)

/-- The input keys consumed by the declared fields of `ToolUv`
(canonical names and, with `populate_by_name=True`, the hyphenated
aliases); everything else lands in the extra bag. -/
def toolUvKnownKeys : List String :=
  ["package", "managed", "required_version", "required-version", "resolution",
   "prerelease", "python_preference", "python-preference", "sources"]

/-- An `Optional[...]` field of `ToolUv`, addressed by its alias and (via
`populate_by_name=True`) its canonical name; pydantic consults the alias
first.  Errors are located at the alias key. -/
def toolUvField (coerce : Value → Except (List VErr) α)
    (fs : List (String × Value)) (aliasKey name : String) :
    Except (List VErr) (Option α) :=
  match (objGet fs aliasKey).orElse (fun _ => objGet fs name) with
  | none => .ok none
  | some .vnull => .ok none
  | some v =>
      match coerce v with
      | .ok a => .ok (some a)
      | .error es => .error (errsUnder [LocKey.k aliasKey] es)

/-- Validation result of the `package` field. -/
def uvPackageR (fs : List (String × Value)) : Except (List VErr) (Option Bool) :=
  toolUvField coerceBool fs "package" "package"

/-- Validation result of the `managed` field. -/
def uvManagedR (fs : List (String × Value)) : Except (List VErr) (Option Bool) :=
  toolUvField coerceBool fs "managed" "managed"

/-- Validation result of the `required_version` field (alias
`required-version`). -/
def uvRequiredVersionR (fs : List (String × Value)) :
    Except (List VErr) (Option String) :=
  toolUvField coerceStr fs "required-version" "required_version"

/-- Validation result of the `resolution` field. -/
def uvResolutionR (fs : List (String × Value)) : Except (List VErr) (Option String) :=
  toolUvField (coerceEnum resolutionValues) fs "resolution" "resolution"

/-- Validation result of the `prerelease` field. -/
def uvPrereleaseR (fs : List (String × Value)) : Except (List VErr) (Option String) :=
  toolUvField (coerceEnum prereleaseValues) fs "prerelease" "prerelease"

/-- Validation result of the `python_preference` field (alias
`python-preference`). -/
def uvPythonPreferenceR (fs : List (String × Value)) :
    Except (List VErr) (Option String) :=
  toolUvField (coerceEnum pythonPreferenceValues) fs "python-preference" "python_preference"

/-- Validation result of the `sources` field. -/
def uvSourcesR (fs : List (String × Value)) :
    Except (List VErr) (Option (List (String × SourceVal))) :=
  toolUvField coerceSources fs "sources" "sources"

/-- All errors of the declared fields, in declaration order. -/
def toolUvErrs (fs : List (String × Value)) : List VErr :=
  errsOf (uvPackageR fs) ++ errsOf (uvManagedR fs) ++ errsOf (uvRequiredVersionR fs) ++
    errsOf (uvResolutionR fs) ++ errsOf (uvPrereleaseR fs) ++
    errsOf (uvPythonPreferenceR fs) ++ errsOf (uvSourcesR fs)

/-- The model built when no field errored: declared fields plus the extra
bag of unknown keys (`extra="allow"`). -/
def toolUvBuild (fs : List (String × Value)) : ToolUvModel :=
  ⟨valOf (uvPackageR fs), valOf (uvManagedR fs), valOf (uvRequiredVersionR fs),
    valOf (uvResolutionR fs), valOf (uvPrereleaseR fs), valOf (uvPythonPreferenceR fs),
    valOf (uvSourcesR fs), fs.filter (fun kv => kv.1 ∉ toolUvKnownKeys)⟩

/-- `ToolUv(**cfg)`: validate a raw mapping against the `ToolUv` model,
collecting the errors of all fields in declaration order. -/
def validateToolUv : Value → Except (List VErr) ToolUvModel
  | .vobj fs =>
      if (toolUvErrs fs).isEmpty then .ok (toolUvBuild fs)
      else .error (toolUvErrs fs)
  | v => .error [⟨[], "Input should be a valid dictionary", v⟩]

/-- `Pyproject(**data)` (`core.py` lines 91-95): requires a `tool` key whose
value is a `Dict[str, dict]` — every value of `tool` must itself be a
mapping.  Extra top-level keys are ignored (pydantic's default). -/
def validatePyproject : Value → Except (List VErr) (List (String × Value))
  | .vobj fs =>
      match objGet fs "tool" with
      | none => .error [⟨[LocKey.k "tool"], "Field required", .vobj fs⟩]
      | some (.vobj tfs) =>
          let bad := tfs.filter (fun kv => !kv.2.isObj)
          if bad.isEmpty then .ok tfs
          else
            .error (bad.map fun kv =>
              ⟨[LocKey.k "tool", LocKey.k kv.1], "Input should be a valid dictionary", kv.2⟩)
      | some v => .error [⟨[LocKey.k "tool"], "Input should be a valid dictionary", v⟩]
  | v => .error [⟨[], "Input should be a valid dictionary", v⟩]

/-- Render a pydantic `ValidationError` as the human-readable message the
CLI prints (`str(exc)`); the exact text is modelled, its content is the
error count. -/
def renderErrs (es : List VErr) : String :=
  toString es.length ++ " validation error(s) for ToolUv"

/-- The `Pyproject.uv` property (`core.py` lines 97-102): raises
`ValueError("[tool.uv] section not found")` when `tool` has no `uv` key,
otherwise validates the `uv` mapping as `ToolUv`. -/
def pyprojectUv (tool : List (String × Value)) : Except String ToolUvModel :=
  match objGet tool "uv" with
  | none => .error "[tool.uv] section not found"
  | some cfg =>
      match validateToolUv cfg with
      | .ok m => .ok m
      | .error es => .error (renderErrs es)

/-! ## `model_dump` and the defaults

`init` and `merge` build
`ToolUv(package=True, resolution="highest").model_dump(exclude_none=True,
by_alias=True)`.  `model_dump` emits the declared fields in declaration
order under their aliases, dropping `None` fields (recursively for the
source sub-models), followed by the extra bag verbatim. -/

/-- Emit an optional field of a dump (`exclude_none=True`). -/
def optEntry (key : String) : Option Value → List (String × Value)
  | none => []
  | some v => [(key, v)]

/-- `model_dump` of one source-union member (`exclude_none=True`). -/
def dumpSingleSource : SingleSource → Value
  | .git g =>
      .vobj ([("git", .vstr g.git)] ++ optEntry "tag" (g.tag.map .vstr) ++
        optEntry "branch" (g.branch.map .vstr) ++ optEntry "rev" (g.rev.map .vstr) ++
        optEntry "subdirectory" (g.subdirectory.map .vstr) ++
        optEntry "marker" (g.marker.map .vstr))
  | .url u =>
      .vobj ([("url", .vstr u.url)] ++ optEntry "marker" (u.marker.map .vstr))
  | .path p =>
      .vobj ([("path", .vstr p.path)] ++ optEntry "editable" (p.editable.map .vbool) ++
        optEntry "package" (p.package.map .vbool) ++
        optEntry "marker" (p.marker.map .vstr))
  | .workspace w =>
      .vobj ([("workspace", .vbool w.workspace)] ++
        optEntry "marker" (w.marker.map .vstr))
  | .index i =>
      .vobj ([("index", .vstr i.index)] ++ optEntry "extra" (i.extra.map .vstr) ++
        optEntry "marker" (i.marker.map .vstr))

/-- `model_dump` of a validated source value. -/
def dumpSourceVal : SourceVal → Value
  | .one s => dumpSingleSource s
  | .many ss => .varr (ss.map dumpSingleSource)

/-- `model_dump(exclude_none=True, by_alias=True)` of a validated
`ToolUv`. -/
def modelDump (m : ToolUvModel) : Value :=
  .vobj (optEntry "package" (m.package.map .vbool) ++
    optEntry "managed" (m.managed.map .vbool) ++
    optEntry "required-version" (m.required_version.map .vstr) ++
    optEntry "resolution" (m.resolution.map .vstr) ++
    optEntry "prerelease" (m.prerelease.map .vstr) ++
    optEntry "python-preference" (m.python_preference.map .vstr) ++
    optEntry "sources"
      (m.sources.map fun l => .vobj (l.map fun nv => (nv.1, dumpSourceVal nv.2))) ++
    m.extra)

/-- `ToolUv(package=True, resolution="highest").model_dump(exclude_none=True,
by_alias=True)` as computed by `init` and `merge` (`cli.py` lines 55-58 and
85-88). -/
def mergeDefaults : Value :=
  match validateToolUv (.vobj [("package", .vbool true), ("resolution", .vstr "highest")]) with
  | .ok m => modelDump m
  | .error _ => .vnull

/-- The defaults mapping, spelled out. -/
def toolUvDefaultFields : List (String × Value) :=
  [("package", .vbool true), ("resolution", .vstr "highest")]


/-! ## The command surface (`cli.py`) -/

/-- A file path as the CLI sees it: `pathlib.Path` decomposed into stem
and suffix (the final extension, dot included). -/
structure PathM where
  stem : String
  suffix : String
deriving DecidableEq

/-- `path.with_suffix(s)`. -/
def withSuffix (p : PathM) (s : String) : PathM := ⟨p.stem, s⟩

/-- The three input formats. -/
inductive FileFormat where
  | toml : FileFormat
  | yaml : FileFormat
  | json : FileFormat
deriving DecidableEq

/-- Extension dispatch of `load_any` (`core.py` lines 105-117): the suffix
is lowercased, then matched against `.toml`, `.yml`/`.yaml`, `.json`;
anything else raises the unsupported-file-type error. -/
def loadAnyFormat (p : PathM) : Except String FileFormat :=
  let suffix := strLower p.suffix
  if suffix = ".toml" then .ok .toml
  else if suffix = ".yml" ∨ suffix = ".yaml" then .ok .yaml
  else if suffix = ".json" then .ok .json
  else .error "Unsupported file type, use .toml/.yaml/.yml/.json"

/-- Outcome of one CLI command: the lines printed to stdout, the lines
printed to stderr, and the process exit code (typer: `Exit(code=1)` and
uncaught exceptions exit with status 1). -/
structure CmdResult where
  stdout : List String
  stderr : List String
  exitCode : Nat
deriving DecidableEq

/-- The `validate` command (`cli.py` lines 21-32) on a loaded document.
The success line is echoed right after `Pyproject(**data)` succeeds; the
`resolution = ...` line evaluates the `py.uv` property, which can still
raise — the exception is then caught and reported after the success line
has already been printed. -/
def validateCmd (doc : Value) : CmdResult :=
  match validatePyproject doc with
  | .error es => ⟨[], ["❌ Ошибка конфигурации:", renderErrs es], 1⟩
  | .ok tool =>
      match pyprojectUv tool with
      | .error msg => ⟨["✅ Конфигурация валидна!"], ["❌ Ошибка конфигурации:", msg], 1⟩
      | .ok m =>
          ⟨["✅ Конфигурация валидна!",
            "resolution = " ++ (match m.resolution with
              | some s => s
              | none => "None")], [], 0⟩

/-- The mutation step of the `set` command (`cli.py` line 42):
`data.setdefault("tool", {}).setdefault("uv", {})[key] = value`.
Returns the top-level, `tool` and `uv` association lists when the chain
goes through mappings; `none` models the `AttributeError`/`TypeError`
raised when `tool` or `tool.uv` is present but not a mapping (or the
document itself is not a mapping). -/
def setParts (doc : Value) : Option (List (String × Value) ×
    List (String × Value) × List (String × Value)) :=
  match doc with
  | .vobj top =>
      match (objGet top "tool").getD (.vobj []) with
      | .vobj toolFs =>
          match (objGet toolFs "uv").getD (.vobj []) with
          | .vobj uvFs => some (top, toolFs, uvFs)
          | _ => none
      | _ => none
  | _ => none

/-- Destination of the `set` command's write (`cli.py` lines 44-47): the
path itself when its suffix is exactly `.toml` (case-sensitive
comparison), the sibling `.toml` path otherwise. -/
def setDest (p : PathM) : PathM :=
  if p.suffix = ".toml" then p else withSuffix p ".toml"

/-- Outcome of the `set` command: files written (destination plus TOML
document), stdout lines, and the uncaught error if any (surfaced by typer
with a nonzero exit).  Every failure happens before the single write. -/
structure SetResult where
  writes : List (PathM × TomlValue)
  stdout : List String
  err : Option String

/-- The `set` command (`cli.py` lines 36-48) on a loaded document: mutate
`tool.uv[key]` to the (string) value, validate the mutated section with
`ToolUv(**...)`, and only then dump the whole document to TOML. -/
def setCmd (p : PathM) (doc : Value) (key value : String) : SetResult :=
  match setParts doc with
  | none => ⟨[], [], some "TypeError: item assignment on a non-mapping"⟩
  | some (top, toolFs, uvFs) =>
      let uvN := objSet uvFs key (.vstr value)
      let toolN := objSet toolFs "uv" (.vobj uvN)
      let topN := objSet top "tool" (.vobj toolN)
      match validateToolUv (.vobj uvN) with
      | .error es => ⟨[], [], some (renderErrs es)⟩
      | .ok _ =>
          match dumpToml (.vobj topN) with
          | .error e => ⟨[], [], some e⟩
          | .ok t => ⟨[(setDest p, t)], ["✅ Параметр установлен"], none⟩

/-- `settings.get("tool", {}).get("uv", {}) or {}` on the Dynaconf
settings loaded from the single YAML file (`cli.py` lines 91-95).
Modelled Dynaconf behaviour: with a single settings file there is no
second layer for `merge_enabled` to combine with, so the overrides are
the file's `tool.uv` content for either flag value; a missing key yields
the `{}` default, and the trailing `or {}` replaces a falsy result by
`{}`.  `.get` on a non-mapping `tool` value raises (`AttributeError`). -/
def dynaconfToolUv (yamlDoc : Value) (_mergeEnabled : Bool) : Except String Value :=
  match yamlDoc with
  | .vobj fs =>
      match objGet fs "tool" with
      | none => .ok (.vobj [])
      | some (.vobj tfs) =>
          match objGet tfs "uv" with
          | none => .ok (.vobj [])
          | some u => .ok (if pyTruthy u then u else .vobj [])
      | some _ => .error "AttributeError: get on a non-mapping"
  | _ => .ok (.vobj [])

/-- `{**defaults, **overrides}` (`cli.py` line 97): start from the
defaults and assign every override key in order — override wins
key-for-key, and an override value (nested or not) replaces the default
wholesale. -/
def mergeOverrides (defaults : List (String × Value))
    (overrides : List (String × Value)) : List (String × Value) :=
  overrides.foldl (fun acc kv => objSet acc kv.1 kv.2) defaults

/-- The `merge` command (`cli.py` lines 79-101) on the loaded YAML
document: compute the defaults dump, take the YAML `tool.uv` overrides
through Dynaconf, shallow-merge, validate, and dump
`{"tool": {"uv": merged}}` to the target TOML file. -/
def mergeCmd (yamlDoc : Value) (mergeEnabled : Bool) : Except String TomlValue :=
  match dynaconfToolUv yamlDoc mergeEnabled with
  | .error e => .error e
  | .ok overrides =>
      match mergeDefaults, overrides with
      | .vobj dfs, .vobj ofs =>
          let merged := mergeOverrides dfs ofs
          match validateToolUv (.vobj merged) with
          | .error es => .error (renderErrs es)
          | .ok _ => dumpToml (.vobj [("tool", .vobj [("uv", .vobj merged)])])
      | _, _ => .error "TypeError: mapping unpacking requires a mapping"

/-- The document written by `init` (`cli.py` lines 51-60). -/
def initDoc : Value :=
  .vobj [("tool", .vobj [("uv", mergeDefaults)])]

/-- The canonical field names of `ToolUv` (the keys of
`ToolUv.model_fields`), in declaration order. -/
def toolUvFieldNames : List String :=
  ["package", "managed", "required_version", "resolution", "prerelease",
   "python_preference", "sources"]

/-- `str(field.annotation)` for each field of `ToolUv` — every annotation
is a `typing.Optional[...]` generic alias (the `sources` repr is
abbreviated). -/
def annotationRepr (fieldName : String) : String :=
  if fieldName = "package" ∨ fieldName = "managed" then "typing.Optional[bool]"
  else if fieldName = "required_version" then "typing.Optional[str]"
  else if fieldName = "resolution" then "typing.Optional[uv_config.core.Resolution]"
  else if fieldName = "prerelease" then "typing.Optional[uv_config.core.Prerelease]"
  else if fieldName = "python_preference" then
    "typing.Optional[uv_config.core.PythonPreference]"
  else "typing.Optional[typing.Dict[str, Source]]"

/-- The `param` command (`cli.py` lines 63-75).  The field is looked up in
`ToolUv.model_fields` under the given name, then under the name with `-`
replaced by `_`; on no match it echoes the not-found line and exits 1.
On a match it echoes `f"{name}: {field.annotation}"`; then
`hasattr(field.annotation, "__members__")` is `False` for every field
(each annotation is an `Optional[...]` alias, not the bare enum class),
`inspect.getdoc(field.annotation)` returns `None` for a typing generic
alias (checked on CPython 3.11), so the `or` chain evaluates
`field.field_info` — an attribute pydantic-v2 `FieldInfo` does not have —
raising an uncaught `AttributeError`, which typer surfaces as a traceback
and exit status 1. -/
def paramCmd (name : String) : CmdResult :=
  let canonical :=
    if toolUvFieldNames.contains name then some name
    else if toolUvFieldNames.contains (hyphenToUnderscore name) then
      some (hyphenToUnderscore name)
    else none
  match canonical with
  | none => ⟨["❌ Нет такого параметра"], [], 1⟩
  | some f =>
      ⟨[name ++ ": " ++ annotationRepr f],
       ["AttributeError: FieldInfo object has no attribute field_info"], 1⟩

mutual
/-- `tomlkit.dumps(tomlkit.item(v))` as a string, for annotate's rendering
of a mapping/sequence current value (the precise tomlkit layout is not
modelled; the rendering here is an inline approximation). -/
def tomlRepr : TomlValue → String
  | .tbool b => cond b "true" "false"
  | .tint n => toString n
  | .tstr s => "\"" ++ s ++ "\""
  | .tarr xs => "[" ++ tomlReprList xs ++ "]"
  | .ttable fs => "\x7b" ++ tomlReprFields fs ++ "\x7d"

def tomlReprList : List TomlValue → String
  | [] => ""
  | [x] => tomlRepr x
  | x :: xs => tomlRepr x ++ ", " ++ tomlReprList xs

def tomlReprFields : List (String × TomlValue) → String
  | [] => ""
  | [(k, x)] => k ++ " = " ++ tomlRepr x
  | (k, x) :: xs => k ++ " = " ++ tomlRepr x ++ ", " ++ tomlReprFields xs
end

/-- Python `repr` of a scalar current value. -/
def pyRepr : Value → String
  | .vnull => "None"
  | .vbool true => "True"
  | .vbool false => "False"
  | .vint n => toString n
  | .vstr s => "\x27" ++ s ++ "\x27"
  | _ => ""

/-- The property keys and titles of `ToolUv.model_json_schema(by_alias=True)`,
in declaration order.  No field has a description, every field's schema is
an `anyOf` (from `Optional`) without a top-level `enum` key, and every
field's `model_fields` default is `None` — so annotate never emits the
description, enum or default lines. -/
def schemaProps : List (String × String) :=
  [("package", "Package"), ("managed", "Managed"),
   ("required-version", "Required Version"), ("resolution", "Resolution"),
   ("prerelease", "Prerelease"), ("python-preference", "Python Preference"),
   ("sources", "Sources")]

/-- One iteration of annotate's loop over the schema properties
(`cli.py` lines 125-152): current value from the file's section with
default `None`; mappings and sequences rendered through `tomlkit.item`
(which raises on a nested `None`), scalars through `repr`. -/
def annotateField (cfgFs : List (String × Value)) (key title : String) :
    Except String (List String) :=
  let current := (objGet cfgFs key).getD .vnull
  let header := "## " ++ title ++ " `" ++ key ++ "`"
  match current with
  | .vobj fs =>
      match toToml (.vobj fs) with
      | .ok t => .ok [header, "> Текущее: " ++ tomlRepr t ++ "\n"]
      | .error e => .error e
  | .varr xs =>
      match toToml (.varr xs) with
      | .ok t => .ok [header, "> Текущее: " ++ tomlRepr t ++ "\n"]
      | .error e => .error e
  | c => .ok [header, "> Текущее: " ++ pyRepr c ++ "\n"]

/-- Annotate's loop over all schema properties. -/
def annotateFields (cfgFs : List (String × Value)) :
    List (String × String) → Except String (List String)
  | [] => .ok []
  | (key, title) :: rest =>
      match annotateField cfgFs key title with
      | .ok ls =>
          match annotateFields cfgFs rest with
          | .ok more => .ok (ls ++ more)
          | .error e => .error e
      | .error e => .error e

/-- The `annotate` command (`cli.py` lines 103-154) on a loaded document:
`raw.get("tool", {}).get("uv", {})` (raising when an intermediate value is
not a mapping), then one annotated block per declared field.  Returns the
echoed lines, or the uncaught exception. -/
def annotateCmd (doc : Value) : Except String (List String) :=
  match doc with
  | .vobj raw =>
      match (objGet raw "tool").getD (.vobj []) with
      | .vobj toolFs =>
          match (objGet toolFs "uv").getD (.vobj []) with
          | .vobj cfgFs =>
              match annotateFields cfgFs schemaProps with
              | .ok ls => .ok ("# Annotated [tool.uv] configuration\n" :: ls)
              | .error e => .error e
          | _ => .error "AttributeError: get on a non-mapping"
      | _ => .error "AttributeError: get on a non-mapping"
  | _ => .error "AttributeError: get on a non-mapping"

/-- The `full` command (`cli.py` lines 156-190).  Its first statement is
`json.loads(ToolUv.model_json_schema())`: `model_json_schema()` returns a
`dict`, and `json.loads` of a `dict` unconditionally raises
`TypeError: the JSON object must be str, bytes or bytearray, not dict` —
before the config file is even loaded and before any option is printed.
Typer surfaces the uncaught exception with exit status 1. -/
def fullCmd (_doc : Value) : CmdResult :=
  ⟨[], ["TypeError: the JSON object must be str, bytes or bytearray, not dict"], 1⟩

/-! ## Library lemmas and claim theorems -/

mutual
theorem fromToml_toToml : (v : Value) → (t : TomlValue) → toToml v = .ok t →
    fromToml t = v
  | .vnull, _, h => by simp [toToml] at h
  | .vbool b, t, h => by
      simp only [toToml, Except.ok.injEq] at h
      subst h; simp [fromToml]
  | .vint n, t, h => by
      simp only [toToml, Except.ok.injEq] at h
      subst h; simp [fromToml]
  | .vstr s, t, h => by
      simp only [toToml, Except.ok.injEq] at h
      subst h; simp [fromToml]
  | .varr xs, t, h => by
      simp only [toToml] at h
      cases hl : toTomlList xs with
      | ok ts =>
          rw [hl] at h
          simp only [Except.ok.injEq] at h
          subst h
          simp [fromToml, fromTomlList_toTomlList xs ts hl]
      | error e => rw [hl] at h; simp at h
  | .vobj fs, t, h => by
      simp only [toToml] at h
      cases hl : toTomlFields fs with
      | ok ts =>
          rw [hl] at h
          simp only [Except.ok.injEq] at h
          subst h
          simp [fromToml, fromTomlFields_toTomlFields fs ts hl]
      | error e => rw [hl] at h; simp at h

theorem fromTomlList_toTomlList : (xs : List Value) → (ts : List TomlValue) →
    toTomlList xs = .ok ts → fromTomlList ts = xs
  | [], ts, h => by
      simp only [toTomlList, Except.ok.injEq] at h
      subst h; simp [fromTomlList]
  | x :: xs, ts, h => by
      simp only [toTomlList] at h
      cases hx : toToml x with
      | ok t =>
          rw [hx] at h
          cases hl : toTomlList xs with
          | ok rest =>
              rw [hl] at h
              simp only [Except.ok.injEq] at h
              subst h
              simp [fromTomlList, fromToml_toToml x t hx,
                fromTomlList_toTomlList xs rest hl]
          | error e => rw [hl] at h; simp at h
      | error e => rw [hx] at h; simp at h

theorem fromTomlFields_toTomlFields : (fs : List (String × Value)) →
    (ts : List (String × TomlValue)) → toTomlFields fs = .ok ts →
    fromTomlFields ts = fs
  | [], ts, h => by
      simp only [toTomlFields, Except.ok.injEq] at h
      subst h; simp [fromTomlFields]
  | (k, x) :: xs, ts, h => by
      simp only [toTomlFields] at h
      cases hx : toToml x with
      | ok t =>
          rw [hx] at h
          cases hl : toTomlFields xs with
          | ok rest =>
              rw [hl] at h
              simp only [Except.ok.injEq] at h
              subst h
              simp [fromTomlFields, fromToml_toToml x t hx,
                fromTomlFields_toTomlFields xs rest hl]
          | error e => rw [hl] at h; simp at h
      | error e => rw [hx] at h; simp at h
end

/-- Whenever `dump_toml` accepts a document, re-parsing the written TOML
yields the document back. -/
theorem fromToml_dumpToml (v : Value) (t : TomlValue) (h : dumpToml v = .ok t) :
    fromToml t = v := by
  cases v with
  | vobj fs =>
      simp only [dumpToml] at h
      cases hl : toTomlFields fs with
      | ok ts =>
          rw [hl] at h
          simp only [Except.ok.injEq] at h
          subst h
          simp [fromToml, fromTomlFields_toTomlFields fs ts hl]
      | error e => rw [hl] at h; simp at h
  | vnull => simp [dumpToml] at h
  | vbool b => simp [dumpToml] at h
  | vint n => simp [dumpToml] at h
  | vstr s => simp [dumpToml] at h
  | varr xs => simp [dumpToml] at h

theorem mergeDefaults_eq : mergeDefaults = .vobj toolUvDefaultFields := by
  rfl

/-! ### Dictionary lemmas -/

theorem objGet_objSet_self (fs : List (String × Value)) (k : String) (v : Value) :
    objGet (objSet fs k v) k = some v := by
  induction fs with
  | nil => simp [objSet, objGet]
  | cons kv rest ih =>
      obtain ⟨k1, v1⟩ := kv
      by_cases h : k1 = k
      · subst h; simp [objSet, objGet]
      · simp [objSet, objGet, h, ih]

theorem objGet_objSet_ne (fs : List (String × Value)) (k k' : String) (v : Value)
    (h : k' ≠ k) : objGet (objSet fs k v) k' = objGet fs k' := by
  induction fs with
  | nil => simp [objSet, objGet, Ne.symm h]
  | cons kv rest ih =>
      obtain ⟨k1, v1⟩ := kv
      by_cases h1 : k1 = k
      · subst h1; simp [objSet, objGet, Ne.symm h]
      · simp [objSet, objGet, h1, ih]

theorem getD_obj_inv (o : Option Value) (fs : List (String × Value))
    (h : o.getD (.vobj []) = .vobj fs) :
    (o = none ∧ fs = []) ∨ o = some (.vobj fs) := by
  cases o with
  | none =>
      left
      simp only [Option.getD, Value.vobj.injEq] at h
      exact ⟨rfl, h.symm⟩
  | some x =>
      right
      simp only [Option.getD] at h
      rw [h]

/-! ### `set` command inversion -/

theorem setParts_inv (doc : Value) (top toolFs uvFs : List (String × Value))
    (h : setParts doc = some (top, toolFs, uvFs)) :
    doc = .vobj top ∧
    ((objGet top "tool" = none ∧ toolFs = []) ∨
      objGet top "tool" = some (.vobj toolFs)) ∧
    ((objGet toolFs "uv" = none ∧ uvFs = []) ∨
      objGet toolFs "uv" = some (.vobj uvFs)) := by
  cases doc with
  | vobj top0 =>
      simp only [setParts] at h
      split at h
      · rename_i tfs htool
        split at h
        · rename_i ufs huv
          simp only [Option.some.injEq, Prod.mk.injEq] at h
          obtain ⟨h1, h2, h3⟩ := h
          subst h1; subst h2; subst h3
          exact ⟨rfl, getD_obj_inv _ _ htool, getD_obj_inv _ _ huv⟩
        · simp at h
      · simp at h
  | vnull => simp [setParts] at h
  | vbool b => simp [setParts] at h
  | vint n => simp [setParts] at h
  | vstr s => simp [setParts] at h
  | varr xs => simp [setParts] at h

theorem setCmd_writes_inv (p : PathM) (doc : Value) (key value : String)
    (d : PathM) (t : TomlValue)
    (h : (setCmd p doc key value).writes = [(d, t)]) :
    ∃ top toolFs uvFs m,
      setParts doc = some (top, toolFs, uvFs) ∧
      d = setDest p ∧
      validateToolUv (.vobj (objSet uvFs key (.vstr value))) = .ok m ∧
      dumpToml (.vobj (objSet top "tool"
        (.vobj (objSet toolFs "uv" (.vobj (objSet uvFs key (.vstr value))))))) = .ok t := by
  unfold setCmd at h
  split at h
  · simp at h
  · rename_i parts top toolFs uvFs hparts
    dsimp only at h
    split at h
    · simp at h
    · rename_i m hval
      split at h
      · simp at h
      · rename_i t0 hdump
        simp only [List.cons.injEq, Prod.mk.injEq, and_true] at h
        obtain ⟨hd, ht⟩ := h
        subst ht
        exact ⟨top, toolFs, uvFs, m, hparts, hd.symm, hval, hdump⟩

theorem setCmd_err_no_writes (p : PathM) (doc : Value) (key value : String)
    (h : (setCmd p doc key value).err.isSome) :
    (setCmd p doc key value).writes = [] := by
  unfold setCmd at h ⊢
  split
  · rfl
  · rename_i parts top toolFs uvFs hparts
    rw [hparts] at h
    dsimp only at h ⊢
    split
    · rfl
    · rename_i m hval
      rw [hval] at h
      split
      · rfl
      · rename_i t0 hdump
        rw [hdump] at h
        simp at h

/-! ### Error-list lemmas -/

theorem errsUnder_errsUnder (p q : List LocKey) (es : List VErr) :
    errsUnder p (errsUnder q es) = errsUnder (p ++ q) es := by
  simp [errsUnder, List.map_map, Function.comp, List.append_assoc]

theorem errsUnder_ne_nil (p : List LocKey) (es : List VErr) (h : es ≠ []) :
    errsUnder p es ≠ [] := by
  cases es with
  | nil => exact absurd rfl h
  | cons e rest => simp [errsUnder]

theorem isEmpty_false_of_ne_nil (l : List α) (h : l ≠ []) : l.isEmpty = false := by
  cases l with
  | nil => exact absurd rfl h
  | cons a rest => rfl

theorem eq_nil_of_isEmpty_true (l : List α) (h : l.isEmpty = true) : l = [] := by
  cases l with
  | nil => rfl
  | cons a rest => simp [List.isEmpty] at h

theorem validateGitSource_error_ne_nil (v : Value) (es : List VErr)
    (h : validateGitSource v = .error es) : es ≠ [] := by
  cases v with
  | vobj fs =>
      simp only [validateGitSource] at h
      split at h
      · simp at h
      · rename_i hne
        simp only [Except.error.injEq] at h
        subst h
        intro hnil
        rw [hnil] at hne
        simp at hne
  | vnull => simp only [validateGitSource, Except.error.injEq] at h; subst h; simp
  | vbool b => simp only [validateGitSource, Except.error.injEq] at h; subst h; simp
  | vint n => simp only [validateGitSource, Except.error.injEq] at h; subst h; simp
  | vstr s => simp only [validateGitSource, Except.error.injEq] at h; subst h; simp
  | varr xs => simp only [validateGitSource, Except.error.injEq] at h; subst h; simp

theorem validateUrlSource_error_ne_nil (v : Value) (es : List VErr)
    (h : validateUrlSource v = .error es) : es ≠ [] := by
  cases v with
  | vobj fs =>
      simp only [validateUrlSource] at h
      split at h
      · simp at h
      · rename_i hne
        simp only [Except.error.injEq] at h
        subst h
        intro hnil
        rw [hnil] at hne
        simp at hne
  | vnull => simp only [validateUrlSource, Except.error.injEq] at h; subst h; simp
  | vbool b => simp only [validateUrlSource, Except.error.injEq] at h; subst h; simp
  | vint n => simp only [validateUrlSource, Except.error.injEq] at h; subst h; simp
  | vstr s => simp only [validateUrlSource, Except.error.injEq] at h; subst h; simp
  | varr xs => simp only [validateUrlSource, Except.error.injEq] at h; subst h; simp

theorem validateSingleSource_error_ne_nil (v : Value) (es : List VErr)
    (h : validateSingleSource v = .error es) : es ≠ [] := by
  unfold validateSingleSource at h
  split at h
  · simp at h
  · rename_i e1 h1
    split at h
    · simp at h
    · rename_i e2 h2
      split at h
      · simp at h
      · rename_i e3 h3
        split at h
        · simp at h
        · rename_i e4 h4
          split at h
          · simp at h
          · rename_i e5 h5
            simp only [Except.error.injEq] at h
            subst h
            intro hnil
            have h1ne := validateGitSource_error_ne_nil v e1 h1
            have := errsUnder_ne_nil [LocKey.k "GitSource"] e1 h1ne
            rcases List.append_eq_nil.mp
              (List.append_eq_nil.mp
                (List.append_eq_nil.mp (List.append_eq_nil.mp hnil).1).1).1 with ⟨ha, -⟩
            exact this ha

theorem validateSourceList_error_ne_nil (idx : Nat) (xs : List Value) (es : List VErr)
    (h : validateSourceList idx xs = .error es) : es ≠ [] := by
  induction xs generalizing idx es with
  | nil => simp [validateSourceList] at h
  | cons x rest ih =>
      simp only [validateSourceList] at h
      split at h
      · simp at h
      · rename_i hne
        simp only [Except.error.injEq] at h
        subst h
        intro hnil
        obtain ⟨ha, hb⟩ := List.append_eq_nil.mp hnil
        cases hr : validateSingleSource x with
        | ok s =>
            cases hrest : validateSourceList (idx + 1) rest with
            | ok ss => exact hne s ss hr hrest
            | error es2 =>
                rw [hrest] at hb
                exact ih (idx + 1) es2 hrest (by simpa [errsOf] using hb)
        | error es1 =>
            rw [hr] at ha
            exact errsUnder_ne_nil [LocKey.k "list", LocKey.i idx] es1
              (validateSingleSource_error_ne_nil x es1 hr)
              (by simpa [errsOf] using ha)

theorem validateSource_error_ne_nil (v : Value) (es : List VErr)
    (h : validateSource v = .error es) : es ≠ [] := by
  cases v with
  | varr xs =>
      simp only [validateSource] at h
      split at h
      · simp at h
      · rename_i es0 h0
        simp only [Except.error.injEq] at h
        subst h
        exact validateSourceList_error_ne_nil 0 xs es0 h0
  | vnull =>
      simp only [validateSource] at h
      split at h
      · simp at h
      · rename_i es0 h0
        simp only [Except.error.injEq] at h
        subst h
        exact validateSingleSource_error_ne_nil _ es0 h0
  | vbool b =>
      simp only [validateSource] at h
      split at h
      · simp at h
      · rename_i es0 h0
        simp only [Except.error.injEq] at h
        subst h
        exact validateSingleSource_error_ne_nil _ es0 h0
  | vint n =>
      simp only [validateSource] at h
      split at h
      · simp at h
      · rename_i es0 h0
        simp only [Except.error.injEq] at h
        subst h
        exact validateSingleSource_error_ne_nil _ es0 h0
  | vstr s =>
      simp only [validateSource] at h
      split at h
      · simp at h
      · rename_i es0 h0
        simp only [Except.error.injEq] at h
        subst h
        exact validateSingleSource_error_ne_nil _ es0 h0
  | vobj fs =>
      simp only [validateSource] at h
      split at h
      · simp at h
      · rename_i es0 h0
        simp only [Except.error.injEq] at h
        subst h
        exact validateSingleSource_error_ne_nil _ es0 h0

/-! ### `validateToolUv` field lemmas -/

theorem uvResolutionR_objGet (fs : List (String × Value)) (s : String)
    (h : objGet fs "resolution" = some (.vstr s)) :
    uvResolutionR fs = if s ∈ resolutionValues then .ok (some s)
      else .error [⟨[LocKey.k "resolution"], "Input should be one of the enum values",
        .vstr s⟩] := by
  unfold uvResolutionR toolUvField
  rw [h]
  by_cases hmem : s ∈ resolutionValues
  · simp [Option.orElse, coerceEnum, hmem]
  · simp [Option.orElse, coerceEnum, hmem, errsUnder]

theorem validateToolUv_resolution_invalid (fs : List (String × Value)) (s : String)
    (h : objGet fs "resolution" = some (.vstr s)) (hs : s ∉ resolutionValues) :
    validateToolUv (.vobj fs) = .error (toolUvErrs fs) := by
  have hres := uvResolutionR_objGet fs s h
  rw [if_neg hs] at hres
  have hc : ¬ ((toolUvErrs fs).isEmpty = true) := by
    intro hempty
    have h0 : toolUvErrs fs = [] := eq_nil_of_isEmpty_true _ hempty
    unfold toolUvErrs at h0
    rw [hres] at h0
    simp [errsOf, List.append_eq_nil] at h0
  simp only [validateToolUv]
  rw [if_neg hc]

theorem validateToolUv_ok_resolution (fs : List (String × Value)) (m : ToolUvModel)
    (s : String) (h : validateToolUv (.vobj fs) = .ok m)
    (hres : objGet fs "resolution" = some (.vstr s)) :
    s ∈ resolutionValues ∧ m.resolution = some s := by
  simp only [validateToolUv] at h
  split at h
  · rename_i hempty
    simp only [Except.ok.injEq] at h
    subst h
    by_cases hmem : s ∈ resolutionValues
    · refine ⟨hmem, ?_⟩
      have hr := uvResolutionR_objGet fs s hres
      rw [if_pos hmem] at hr
      simp [toolUvBuild, valOf, hr]
    · exfalso
      have hr := uvResolutionR_objGet fs s hres
      rw [if_neg hmem] at hr
      have h0 : toolUvErrs fs = [] := eq_nil_of_isEmpty_true _ hempty
      unfold toolUvErrs at h0
      rw [hr] at h0
      simp [errsOf, List.append_eq_nil] at h0
  · simp at h

theorem uvSourcesR_single_error (name : String) (v : Value) (es : List VErr)
    (h : validateSource v = .error es) :
    uvSourcesR [("sources", .vobj [(name, v)])] =
      .error (errsUnder [LocKey.k "sources"] (errsUnder [LocKey.k name] es)) := by
  unfold uvSourcesR toolUvField
  simp [objGet, Option.orElse, coerceSources, coerceSources.coerceSourcesEntries, h,
    errsOf, List.append_nil]

theorem validateToolUv_sources_error (name : String) (v : Value) (es : List VErr)
    (h : validateSource v = .error es) :
    validateToolUv (.vobj [("sources", .vobj [(name, v)])]) =
      .error (errsUnder [LocKey.k "sources", LocKey.k name] es) := by
  have hsrc := uvSourcesR_single_error name v es h
  have h1 : uvPackageR [("sources", .vobj [(name, v)])] = .ok none := rfl
  have h2 : uvManagedR [("sources", .vobj [(name, v)])] = .ok none := rfl
  have h3 : uvRequiredVersionR [("sources", .vobj [(name, v)])] = .ok none := rfl
  have h4 : uvResolutionR [("sources", .vobj [(name, v)])] = .ok none := rfl
  have h5 : uvPrereleaseR [("sources", .vobj [(name, v)])] = .ok none := rfl
  have h6 : uvPythonPreferenceR [("sources", .vobj [(name, v)])] = .ok none := rfl
  have hne : es ≠ [] := validateSource_error_ne_nil v es h
  have herrs : toolUvErrs [("sources", .vobj [(name, v)])] =
      errsUnder [LocKey.k "sources", LocKey.k name] es := by
    unfold toolUvErrs
    rw [hsrc, h1, h2, h3, h4, h5, h6]
    simp [errsOf, errsUnder_errsUnder]
  have hc : ¬ ((toolUvErrs [("sources", .vobj [(name, v)])]).isEmpty = true) := by
    rw [herrs]
    intro hempty
    exact errsUnder_ne_nil _ es hne (eq_nil_of_isEmpty_true _ hempty)
  simp only [validateToolUv]
  rw [if_neg hc, herrs]

/-! ### Merge and path lemmas -/

theorem vGetPath_one (fs : List (String × Value)) (k : String) :
    vGetPath (.vobj fs) [k] = objGet fs k := by
  cases h : objGet fs k <;> simp [vGetPath, h]

theorem mergeOverrides_not_mem : ∀ (ofs dfs : List (String × Value)) (k : String),
    k ∉ ofs.map Prod.fst → objGet (mergeOverrides dfs ofs) k = objGet dfs k
  | [], _, _, _ => rfl
  | (k1, v1) :: rest, dfs, k, h => by
      simp only [List.map_cons, List.mem_cons] at h
      push_neg at h
      obtain ⟨h1, h2⟩ := h
      have step : mergeOverrides dfs ((k1, v1) :: rest) =
          mergeOverrides (objSet dfs k1 v1) rest := rfl
      rw [step, mergeOverrides_not_mem rest (objSet dfs k1 v1) k h2]
      exact objGet_objSet_ne dfs k1 k v1 h1

theorem mergeOverrides_mem : ∀ (ofs dfs : List (String × Value)) (k : String) (v : Value),
    (ofs.map Prod.fst).Nodup → objGet ofs k = some v →
    objGet (mergeOverrides dfs ofs) k = some v
  | [], _, k, v, _, h => by simp [objGet] at h
  | (k1, v1) :: rest, dfs, k, v, hnd, h => by
      simp only [List.map_cons, List.nodup_cons] at hnd
      obtain ⟨hk1, hnd2⟩ := hnd
      have step : mergeOverrides dfs ((k1, v1) :: rest) =
          mergeOverrides (objSet dfs k1 v1) rest := rfl
      simp only [objGet] at h
      by_cases hk : k1 = k
      · subst hk
        simp at h
        subst h
        rw [step, mergeOverrides_not_mem rest _ k1 hk1]
        exact objGet_objSet_self dfs k1 _
      · rw [if_neg hk] at h
        rw [step]
        exact mergeOverrides_mem rest (objSet dfs k1 v1) k v hnd2 h

/-! ### Additional command-level helper lemmas -/

theorem setCmd_invalid_no_write (p : PathM) (doc : Value) (key value : String)
    (top toolFs uvFs : List (String × Value))
    (hparts : setParts doc = some (top, toolFs, uvFs))
    (hbad : exceptIsOk (validateToolUv (.vobj (objSet uvFs key (.vstr value)))) = false) :
    (setCmd p doc key value).writes = [] ∧ (setCmd p doc key value).err.isSome := by
  have herr : (setCmd p doc key value).err.isSome := by
    unfold setCmd
    rw [hparts]
    dsimp only
    split
    · simp
    · rename_i m hval
      rw [hval] at hbad
      simp [exceptIsOk] at hbad
  exact ⟨setCmd_err_no_writes p doc key value herr, herr⟩

theorem validatePyproject_ok (fs tfs : List (String × Value))
    (h : objGet fs "tool" = some (.vobj tfs))
    (hall : ∀ kv ∈ tfs, kv.2.isObj = true) :
    validatePyproject (.vobj fs) = .ok tfs := by
  simp only [validatePyproject]
  rw [h]
  have hf : tfs.filter (fun kv => !kv.2.isObj) = [] := by
    apply List.filter_eq_nil_iff.mpr
    intro kv hkv
    simp [hall kv hkv]
  simp [hf]

theorem pyprojectUv_ok (tool uvFs : List (String × Value)) (m : ToolUvModel)
    (h : objGet tool "uv" = some (.vobj uvFs))
    (hm : validateToolUv (.vobj uvFs) = .ok m) : pyprojectUv tool = .ok m := by
  unfold pyprojectUv
  rw [h]
  dsimp only
  rw [hm]

theorem vGetPath_cons_some (fs : List (String × Value)) (k : String) (ks : List String)
    (v : Value) (h : objGet fs k = some v) :
    vGetPath (.vobj fs) (k :: ks) = vGetPath v ks := by
  simp [vGetPath, h]

theorem vGetPath_cons_none (fs : List (String × Value)) (k : String) (ks : List String)
    (h : objGet fs k = none) : vGetPath (.vobj fs) (k :: ks) = none := by
  simp [vGetPath, h]

/-! ### Claim theorems -/

/-- Claim C1, counterexample.  The claim says a `sources` entry with none
of the keys `git`/`url`/`path`/`workspace`/`index`, or matching more than
one source shape, fails validation.  In the code the empty mapping entry
validates successfully (as a `WorkspaceSource`, because `workspace`
defaults to `True`), and an entry carrying both `git` and `url` matches
both `GitSource` and `UrlSource` individually and is accepted by the
union rather than rejected. -/
theorem c1_counterexample :
    validateToolUv (.vobj [("sources", .vobj [("foo", .vobj [])])]) =
      .ok ⟨none, none, none, none, none, none,
        some [("foo", .one (.workspace ⟨true, none⟩))], []⟩ ∧
    validateGitSource (.vobj [("git", .vstr "g"), ("url", .vstr "u")]) =
      .ok ⟨"g", none, none, none, none, none⟩ ∧
    validateUrlSource (.vobj [("git", .vstr "g"), ("url", .vstr "u")]) =
      .ok ⟨"u", none⟩ ∧
    exceptIsOk (validateToolUv (.vobj [("sources",
      .vobj [("foo", .vobj [("git", .vstr "g"), ("url", .vstr "u")])])])) = true :=
  ⟨rfl, rfl, rfl, rfl⟩

/-- Claim C1, amended.  A `sources` entry with none of the five
discriminator keys validates successfully as a workspace source with
`workspace` defaulting to `true`; an entry matched by several shapes is
resolved by the union, not rejected.  Validation of an entry fails
exactly when the entry matches no shape at all, and then every reported
error carries the field path `sources.<name>` (as a location prefix) and
the received value, and at least one error is reported. -/
theorem c1_amended :
    (∀ name : String,
      validateToolUv (.vobj [("sources", .vobj [(name, .vobj [])])]) =
        .ok ⟨none, none, none, none, none, none,
          some [(name, .one (.workspace ⟨true, none⟩))], []⟩) ∧
    (∀ (name : String) (v : Value) (es : List VErr), validateSource v = .error es →
      validateToolUv (.vobj [("sources", .vobj [(name, v)])]) =
        .error (errsUnder [LocKey.k "sources", LocKey.k name] es) ∧
      es ≠ [] ∧
      errsUnder [LocKey.k "sources", LocKey.k name] es ≠ [] ∧
      ∀ e ∈ errsUnder [LocKey.k "sources", LocKey.k name] es,
        e.loc.take 2 = [LocKey.k "sources", LocKey.k name]) := by
  constructor
  · intro name
    rfl
  · intro name v es h
    have hne := validateSource_error_ne_nil v es h
    refine ⟨validateToolUv_sources_error name v es h, hne,
      errsUnder_ne_nil _ es hne, ?_⟩
    intro e he
    simp only [errsUnder, List.mem_map] at he
    obtain ⟨e0, -, he0⟩ := he
    subst he0
    rfl

/-- Claim C1, witness for the amended theorem: the entry value `"x"`
(a bare string) matches no source shape, so the entry's validation
errors are reported under `sources.foo`. -/
theorem c1_amended_witness :
    validateSource (.vstr "x") = .error c1WitnessErrs ∧
    validateToolUv (.vobj [("sources", .vobj [("foo", .vstr "x")])]) =
      .error (errsUnder [LocKey.k "sources", LocKey.k "foo"] c1WitnessErrs) ∧
    c1WitnessErrs ≠ [] := by
  refine ⟨rfl, ?_, ?_⟩
  · exact (c1_amended.2 "foo" (.vstr "x") c1WitnessErrs rfl).1
  · exact (c1_amended.2 "foo" (.vstr "x") c1WitnessErrs rfl).2.1

/-- Claim C2 (confirmed).  `set` validates the mutated `tool.uv` section
with `ToolUv(**...)` before `dump_toml` runs, so an assignment that fails
schema validation (in particular `resolution = "fastest"`) raises before
the write: no file is written and the operation fails — and in general a
failed `set` never writes. -/
theorem c2_set_atomic :
    (∀ (p : PathM) (doc : Value) (key value : String)
      (top toolFs uvFs : List (String × Value)),
      setParts doc = some (top, toolFs, uvFs) →
      exceptIsOk (validateToolUv (.vobj (objSet uvFs key (.vstr value)))) = false →
      (setCmd p doc key value).writes = [] ∧ (setCmd p doc key value).err.isSome) ∧
    (∀ (p : PathM) (doc : Value),
      (setCmd p doc "resolution" "fastest").writes = [] ∧
      (setCmd p doc "resolution" "fastest").err.isSome) := by
  constructor
  · exact setCmd_invalid_no_write
  · intro p doc
    cases hparts : setParts doc with
    | none =>
        constructor
        · unfold setCmd; rw [hparts]
        · unfold setCmd; rw [hparts]; rfl
    | some parts =>
        obtain ⟨top, toolFs, uvFs⟩ := parts
        have hres : objGet (objSet uvFs "resolution" (.vstr "fastest")) "resolution" =
            some (.vstr "fastest") := objGet_objSet_self uvFs _ _
        have hbad := validateToolUv_resolution_invalid _ _ hres (by decide)
        exact setCmd_invalid_no_write p doc "resolution" "fastest" top toolFs uvFs
          hparts (by rw [hbad]; rfl)

/-- Claim C2, witness: setting `resolution = "fastest"` on a minimal
document writes nothing and errors. -/
theorem c2_set_atomic_witness :
    (setCmd ⟨"pyproject", ".toml"⟩ (.vobj [("tool", .vobj [("uv", .vobj [])])])
      "resolution" "fastest").writes = [] ∧
    (setCmd ⟨"pyproject", ".toml"⟩ (.vobj [("tool", .vobj [("uv", .vobj [])])])
      "resolution" "fastest").err.isSome :=
  c2_set_atomic.1 ⟨"pyproject", ".toml"⟩ (.vobj [("tool", .vobj [("uv", .vobj [])])])
    "resolution" "fastest" [("tool", .vobj [("uv", .vobj [])])] [("uv", .vobj [])] []
    rfl rfl

/-- Claim C3, counterexample.  A well-formed JSON input `{"a": null}`
loads to a mapping containing `None`; `dump_toml` then raises inside
`tomlkit.item` (TOML has no null), so the round trip
`load(write(load(f))) = load(f)` fails for this input: the write step
errors and no TOML is produced. -/
theorem c3_counterexample :
    dumpToml (.vobj [("a", .vnull)]) = .error "ValueError: Invalid type NoneType" ∧
    ¬ ∃ t, dumpToml (.vobj [("a", .vnull)]) = .ok t ∧
      fromToml t = .vobj [("a", .vnull)] := by
  refine ⟨rfl, ?_⟩
  rintro ⟨t, ht, -⟩
  rw [show dumpToml (.vobj [("a", .vnull)]) =
    .error "ValueError: Invalid type NoneType" from rfl] at ht
  exact Except.noConfusion ht

/-- Claim C3, amended: the round trip holds for every loaded document the
writer accepts — whenever `dump_toml` succeeds on a loaded document (a
top-level mapping containing no null anywhere), re-parsing the written
TOML yields a mapping structurally equal to the original. -/
theorem c3_roundtrip (v : Value) (t : TomlValue) (h : dumpToml v = .ok t) :
    fromToml t = v :=
  fromToml_dumpToml v t h

/-- Claim C3, witness: a document with a nested table round-trips. -/
theorem c3_roundtrip_witness :
    dumpToml (.vobj [("a", .vint 1), ("tool", .vobj [("uv", .vobj
      [("resolution", .vstr "highest")])])]) =
      .ok (.ttable [("a", .tint 1), ("tool", .ttable [("uv", .ttable
        [("resolution", .tstr "highest")])])]) ∧
    fromToml (.ttable [("a", .tint 1), ("tool", .ttable [("uv", .ttable
      [("resolution", .tstr "highest")])])]) =
      .vobj [("a", .vint 1), ("tool", .vobj [("uv", .vobj
        [("resolution", .vstr "highest")])])] :=
  ⟨rfl, c3_roundtrip _ _ rfl⟩

/-- Claim C4 (code bug).  The claim says both `annotate(path)` and
`full(path)` succeed and report every declared field.  `annotate` does
(it reads the schema dict directly), but `full` wraps the same call in
`json.loads(ToolUv.model_json_schema())` — passing the schema `dict`
where `json.loads` requires a string — so `full` unconditionally raises
`TypeError` and exits 1 before printing a single option, for every input
(here evaluated on the document `init` produces). -/
theorem c4_full_always_crashes :
    fullCmd initDoc =
      ⟨[], ["TypeError: the JSON object must be str, bytes or bytearray, not dict"], 1⟩ ∧
    (∀ doc : Value, (fullCmd doc).exitCode = 1 ∧ (fullCmd doc).stdout = []) ∧
    exceptIsOk (annotateCmd initDoc) = true :=
  ⟨rfl, fun _ => ⟨rfl, rfl⟩, rfl⟩

/-- Claim C7, counterexample.  On a document whose `tool` mapping lacks
`uv`, `validate` prints the success line "✅ Конфигурация валидна!"
*before* evaluating `py.uv` (which raises), so the error exit happens
with a success message already reported — contradicting the claim's "no
success reported". -/
theorem c7_counterexample :
    validateCmd (.vobj [("tool", .vobj [("poetry", .vobj [])])]) =
      ⟨["✅ Конфигурация валидна!"],
       ["❌ Ошибка конфигурации:", "[tool.uv] section not found"], 1⟩ ∧
    "✅ Конфигурация валидна!" ∈
      (validateCmd (.vobj [("tool", .vobj [("poetry", .vobj [])])])).stdout := by
  refine ⟨rfl, ?_⟩
  rw [show (validateCmd (.vobj [("tool", .vobj [("poetry", .vobj [])])])).stdout =
    ["✅ Конфигурация валидна!"] from rfl]
  exact List.mem_singleton.mpr rfl

/-- Claim C7, amended.  For every loadable document accepted by
`Pyproject(**data)` whose `tool` mapping lacks a `uv` key, unwrapping
raises `ValueError("[tool.uv] section not found")`; `validate` surfaces
it as a human-readable message on stderr with exit status 1 — but the
success line has already been printed to stdout by then. -/
theorem c7_missing_uv (doc : Value) (tfs : List (String × Value))
    (h : validatePyproject doc = .ok tfs) (huv : objGet tfs "uv" = none) :
    validateCmd doc = ⟨["✅ Конфигурация валидна!"],
      ["❌ Ошибка конфигурации:", "[tool.uv] section not found"], 1⟩ := by
  unfold validateCmd
  rw [h]
  dsimp only
  unfold pyprojectUv
  rw [huv]

/-- Claim C7, witness: the amended theorem applied to a concrete document
with a `tool` table and no `uv` key. -/
theorem c7_missing_uv_witness :
    validatePyproject (.vobj [("tool", .vobj [("poetry", .vobj [("x", .vint 1)])])]) =
      .ok [("poetry", .vobj [("x", .vint 1)])] ∧
    validateCmd (.vobj [("tool", .vobj [("poetry", .vobj [("x", .vint 1)])])]) =
      ⟨["✅ Конфигурация валидна!"],
       ["❌ Ошибка конфигурации:", "[tool.uv] section not found"], 1⟩ :=
  ⟨rfl, c7_missing_uv _ [("poetry", .vobj [("x", .vint 1)])] rfl rfl⟩

/-- Claim C9 (code bug).  Validating a raw mapping through either the
canonical identifier or the hyphenated alias stores the same value in the
model (shown for both aliased fields, on arbitrary input strings).  But
the claim's last part fails in the code: `param` on a *found* field
echoes the annotation line and then evaluates `field.field_info.alias`
— an attribute that pydantic-v2 `FieldInfo` does not have (a pydantic-v1
leftover reached because `inspect.getdoc` of a typing `Optional[...]`
alias is `None`) — so it raises `AttributeError` and exits 1 even when
the name matches, not only when it matches neither spelling. -/
theorem c9_alias_same_value_param_crashes :
    (∀ s : String,
      validateToolUv (.vobj [("required-version", .vstr s)]) =
        validateToolUv (.vobj [("required_version", .vstr s)]) ∧
      validateToolUv (.vobj [("required-version", .vstr s)]) =
        .ok ⟨none, none, some s, none, none, none, none, []⟩) ∧
    (∀ s : String,
      validateToolUv (.vobj [("python-preference", .vstr s)]) =
        validateToolUv (.vobj [("python_preference", .vstr s)])) ∧
    validateToolUv (.vobj [("python-preference", .vstr "system")]) =
      .ok ⟨none, none, none, none, none, some "system", none, []⟩ ∧
    paramCmd "required-version" =
      ⟨["required-version: typing.Optional[str]"],
       ["AttributeError: FieldInfo object has no attribute field_info"], 1⟩ ∧
    paramCmd "required_version" =
      ⟨["required_version: typing.Optional[str]"],
       ["AttributeError: FieldInfo object has no attribute field_info"], 1⟩ ∧
    paramCmd "no-such-field" = ⟨["❌ Нет такого параметра"], [], 1⟩ :=
  ⟨fun _ => ⟨rfl, rfl⟩, fun _ => rfl, rfl, rfl, rfl, rfl⟩

/-- Claim C10 (confirmed).  `load_any` lowercases the suffix, so `.TOML`,
`.YAML`, `.JSON` files are accepted and dispatched by format; but `set`
compares `path.suffix` against `".toml"` case-sensitively, so `set` on a
`.TOML` file writes its output to the sibling `.toml` path instead of
overwriting the input file. -/
theorem c10_case_sensitivity_mismatch :
    loadAnyFormat ⟨"pyproject", ".TOML"⟩ = .ok .toml ∧
    loadAnyFormat ⟨"pyproject", ".YAML"⟩ = .ok .yaml ∧
    loadAnyFormat ⟨"pyproject", ".JSON"⟩ = .ok .json ∧
    setDest ⟨"pyproject", ".TOML"⟩ = ⟨"pyproject", ".toml"⟩ ∧
    setDest ⟨"pyproject", ".TOML"⟩ ≠ ⟨"pyproject", ".TOML"⟩ ∧
    (setCmd ⟨"pyproject", ".TOML"⟩ (.vobj [("tool", .vobj [("uv", .vobj [])])])
      "resolution" "lowest").writes =
      [(⟨"pyproject", ".toml"⟩,
        .ttable [("tool", .ttable [("uv", .ttable [("resolution", .tstr "lowest")])])])] :=
  ⟨rfl, rfl, rfl, rfl, by decide, rfl⟩

/-- Claim C5 (confirmed).  When `set` writes, the written TOML re-parses
to the mutated document, and every key other than `tool.uv[<key>]` is
preserved verbatim: all top-level keys besides `tool`, all `tool` entries
besides `uv`, and all `tool.uv` entries besides the assigned key carry
exactly their original values (the residual bag reappears verbatim),
while the assigned key holds the new string value. -/
theorem c5_set_preserves_rest (p : PathM) (doc : Value) (key value : String)
    (d : PathM) (t : TomlValue)
    (h : (setCmd p doc key value).writes = [(d, t)]) :
    (∀ k, k ≠ "tool" → vGetPath (fromToml t) [k] = vGetPath doc [k]) ∧
    (∀ k, k ≠ "uv" → vGetPath (fromToml t) ["tool", k] = vGetPath doc ["tool", k]) ∧
    (∀ k, k ≠ key → vGetPath (fromToml t) ["tool", "uv", k] =
      vGetPath doc ["tool", "uv", k]) ∧
    vGetPath (fromToml t) ["tool", "uv", key] = some (.vstr value) := by
  obtain ⟨top, toolFs, uvFs, m, hparts, hd, hval, hdump⟩ :=
    setCmd_writes_inv p doc key value d t h
  obtain ⟨hdoc, htool, huv⟩ := setParts_inv doc top toolFs uvFs hparts
  subst hdoc
  rw [fromToml_dumpToml _ _ hdump]
  have hTopN : objGet (objSet top "tool"
      (.vobj (objSet toolFs "uv" (.vobj (objSet uvFs key (.vstr value)))))) "tool" =
      some (.vobj (objSet toolFs "uv" (.vobj (objSet uvFs key (.vstr value))))) :=
    objGet_objSet_self _ _ _
  have hToolN : objGet (objSet toolFs "uv" (.vobj (objSet uvFs key (.vstr value)))) "uv" =
      some (.vobj (objSet uvFs key (.vstr value))) := objGet_objSet_self _ _ _
  refine ⟨?_, ?_, ?_, ?_⟩
  · intro k hk
    rw [vGetPath_one, vGetPath_one]
    exact objGet_objSet_ne _ _ _ _ hk
  · intro k hk
    rw [vGetPath_cons_some _ _ _ _ hTopN, vGetPath_one, objGet_objSet_ne _ _ _ _ hk]
    rcases htool with ⟨hnone, hnil⟩ | hsome
    · subst hnil
      rw [vGetPath_cons_none _ _ _ hnone]
      simp [objGet]
    · rw [vGetPath_cons_some _ _ _ _ hsome, vGetPath_one]
  · intro k hk
    rw [vGetPath_cons_some _ _ _ _ hTopN, vGetPath_cons_some _ _ _ _ hToolN,
      vGetPath_one, objGet_objSet_ne _ _ _ _ hk]
    rcases htool with ⟨hnone, hnil⟩ | hsome
    · subst hnil
      rw [vGetPath_cons_none _ _ _ hnone]
      rcases huv with ⟨-, huvnil⟩ | huvsome
      · subst huvnil
        simp [objGet]
      · simp [objGet] at huvsome
    · rw [vGetPath_cons_some _ _ _ _ hsome]
      rcases huv with ⟨huvnone, huvnil⟩ | huvsome
      · subst huvnil
        rw [vGetPath_cons_none _ _ _ huvnone]
        simp [objGet]
      · rw [vGetPath_cons_some _ _ _ _ huvsome, vGetPath_one]
  · rw [vGetPath_cons_some _ _ _ _ hTopN, vGetPath_cons_some _ _ _ _ hToolN,
      vGetPath_one]
    exact objGet_objSet_self _ _ _

/-- Claim C5, witness: setting `resolution` on a JSON-loaded document
with a residual top-level key `x` and a residual `tool.poetry` table —
all of them reappear verbatim in the written TOML. -/
theorem c5_set_preserves_rest_witness :
    (setCmd ⟨"app", ".json"⟩ (.vobj [("x", .vint 1), ("tool", .vobj
      [("poetry", .vobj []), ("uv", .vobj [("package", .vbool true)])])])
      "resolution" "lowest").writes =
      [(⟨"app", ".toml"⟩, .ttable [("x", .tint 1), ("tool", .ttable
        [("poetry", .ttable []), ("uv", .ttable
          [("package", .tbool true), ("resolution", .tstr "lowest")])])])] ∧
    vGetPath (fromToml (.ttable [("x", .tint 1), ("tool", .ttable
        [("poetry", .ttable []), ("uv", .ttable
          [("package", .tbool true), ("resolution", .tstr "lowest")])])])) ["x"] =
      vGetPath (.vobj [("x", .vint 1), ("tool", .vobj
        [("poetry", .vobj []), ("uv", .vobj [("package", .vbool true)])])]) ["x"] ∧
    vGetPath (fromToml (.ttable [("x", .tint 1), ("tool", .ttable
        [("poetry", .ttable []), ("uv", .ttable
          [("package", .tbool true), ("resolution", .tstr "lowest")])])]))
        ["tool", "poetry"] =
      vGetPath (.vobj [("x", .vint 1), ("tool", .vobj
        [("poetry", .vobj []), ("uv", .vobj [("package", .vbool true)])])])
        ["tool", "poetry"] ∧
    vGetPath (fromToml (.ttable [("x", .tint 1), ("tool", .ttable
        [("poetry", .ttable []), ("uv", .ttable
          [("package", .tbool true), ("resolution", .tstr "lowest")])])]))
        ["tool", "uv", "package"] =
      vGetPath (.vobj [("x", .vint 1), ("tool", .vobj
        [("poetry", .vobj []), ("uv", .vobj [("package", .vbool true)])])])
        ["tool", "uv", "package"] ∧
    vGetPath (fromToml (.ttable [("x", .tint 1), ("tool", .ttable
        [("poetry", .ttable []), ("uv", .ttable
          [("package", .tbool true), ("resolution", .tstr "lowest")])])]))
        ["tool", "uv", "resolution"] = some (.vstr "lowest") := by
  refine ⟨rfl, ?_, ?_, ?_, ?_⟩
  · exact (c5_set_preserves_rest ⟨"app", ".json"⟩ (.vobj [("x", .vint 1),
      ("tool", .vobj [("poetry", .vobj []), ("uv", .vobj [("package", .vbool true)])])])
      "resolution" "lowest" ⟨"app", ".toml"⟩ _ rfl).1 "x" (by decide)
  · exact (c5_set_preserves_rest ⟨"app", ".json"⟩ (.vobj [("x", .vint 1),
      ("tool", .vobj [("poetry", .vobj []), ("uv", .vobj [("package", .vbool true)])])])
      "resolution" "lowest" ⟨"app", ".toml"⟩ _ rfl).2.1 "poetry" (by decide)
  · exact (c5_set_preserves_rest ⟨"app", ".json"⟩ (.vobj [("x", .vint 1),
      ("tool", .vobj [("poetry", .vobj []), ("uv", .vobj [("package", .vbool true)])])])
      "resolution" "lowest" ⟨"app", ".toml"⟩ _ rfl).2.2.1 "package" (by decide)
  · exact (c5_set_preserves_rest ⟨"app", ".json"⟩ (.vobj [("x", .vint 1),
      ("tool", .vobj [("poetry", .vobj []), ("uv", .vobj [("package", .vbool true)])])])
      "resolution" "lowest" ⟨"app", ".toml"⟩ _ rfl).2.2.2

/-- Claim C6 (confirmed).  `merge` computes `{**defaults, **overrides}`
with the overrides taken from the YAML file's `tool.uv` section: every
override key wins over the defaults `{package=true, resolution="highest"}`
key-for-key, and an override value — nested or not — replaces the
corresponding default wholesale, for either value of `merge_enabled`
(with a single settings file the flag changes nothing); the command then
validates and dumps exactly that merged mapping. -/
theorem c6_merge_overrides_win (yamlDoc : Value) (me : Bool)
    (ofs : List (String × Value))
    (hov : dynaconfToolUv yamlDoc me = .ok (.vobj ofs))
    (hnd : (ofs.map Prod.fst).Nodup) :
    (∀ k v, objGet ofs k = some v →
      objGet (mergeOverrides toolUvDefaultFields ofs) k = some v) ∧
    mergeCmd yamlDoc me =
      (match validateToolUv (.vobj (mergeOverrides toolUvDefaultFields ofs)) with
       | .error es => .error (renderErrs es)
       | .ok _ => dumpToml (.vobj [("tool", .vobj [("uv",
           .vobj (mergeOverrides toolUvDefaultFields ofs))])])) := by
  constructor
  · intro k v h
    exact mergeOverrides_mem ofs toolUvDefaultFields k v hnd h
  · unfold mergeCmd
    rw [hov]
    dsimp only
    rw [mergeDefaults_eq]

/-- Claim C6, witness: the YAML overrides `resolution=lowest` and a
nested `extra-table` replace the defaults wholesale, for both values of
`merge_enabled`. -/
theorem c6_merge_overrides_win_witness :
    dynaconfToolUv (.vobj [("tool", .vobj [("uv", .vobj
        [("resolution", .vstr "lowest"), ("extra-table", .vobj [("a", .vint 1)])])])])
        false =
      .ok (.vobj [("resolution", .vstr "lowest"),
        ("extra-table", .vobj [("a", .vint 1)])]) ∧
    objGet (mergeOverrides toolUvDefaultFields
        [("resolution", .vstr "lowest"), ("extra-table", .vobj [("a", .vint 1)])])
        "resolution" = some (.vstr "lowest") ∧
    objGet (mergeOverrides toolUvDefaultFields
        [("resolution", .vstr "lowest"), ("extra-table", .vobj [("a", .vint 1)])])
        "extra-table" = some (.vobj [("a", .vint 1)]) ∧
    mergeCmd (.vobj [("tool", .vobj [("uv", .vobj
        [("resolution", .vstr "lowest"), ("extra-table", .vobj [("a", .vint 1)])])])])
        false =
      .ok (.ttable [("tool", .ttable [("uv", .ttable
        [("package", .tbool true), ("resolution", .tstr "lowest"),
         ("extra-table", .ttable [("a", .tint 1)])])])]) ∧
    mergeCmd (.vobj [("tool", .vobj [("uv", .vobj
        [("resolution", .vstr "lowest"), ("extra-table", .vobj [("a", .vint 1)])])])])
        true =
      .ok (.ttable [("tool", .ttable [("uv", .ttable
        [("package", .tbool true), ("resolution", .tstr "lowest"),
         ("extra-table", .ttable [("a", .tint 1)])])])]) := by
  refine ⟨rfl, ?_, ?_, rfl, rfl⟩
  · exact (c6_merge_overrides_win (.vobj [("tool", .vobj [("uv", .vobj
      [("resolution", .vstr "lowest"), ("extra-table", .vobj [("a", .vint 1)])])])])
      false [("resolution", .vstr "lowest"), ("extra-table", .vobj [("a", .vint 1)])]
      rfl (by decide)).1 "resolution" _ rfl
  · exact (c6_merge_overrides_win (.vobj [("tool", .vobj [("uv", .vobj
      [("resolution", .vstr "lowest"), ("extra-table", .vobj [("a", .vint 1)])])])])
      false [("resolution", .vstr "lowest"), ("extra-table", .vobj [("a", .vint 1)])]
      rfl (by decide)).1 "extra-table" _ rfl

/-- Claim C8, counterexample.  `validate` only ever reports the
`resolution` value.  After a successful
`set(path, "required-version", "9.9")`, `validate` on the written file
succeeds (exit 0) but its output is exactly the success line plus
`resolution = None`: the assigned value `9.9` appears nowhere, refuting
"its output reports the assigned value" for assignments to other keys. -/
theorem c8_counterexample :
    (setCmd ⟨"pyproject", ".toml"⟩ (.vobj [("tool", .vobj [("uv", .vobj [])])])
      "required-version" "9.9").writes =
      [(⟨"pyproject", ".toml"⟩, .ttable [("tool", .ttable [("uv", .ttable
        [("required-version", .tstr "9.9")])])])] ∧
    validateCmd (fromToml (.ttable [("tool", .ttable [("uv", .ttable
        [("required-version", .tstr "9.9")])])])) =
      ⟨["✅ Конфигурация валидна!", "resolution = None"], [], 0⟩ ∧
    (∀ line ∈ (validateCmd (fromToml (.ttable [("tool", .ttable [("uv", .ttable
        [("required-version", .tstr "9.9")])])]))).stdout,
      strMentions line "9.9" = false) := by
  refine ⟨rfl, rfl, ?_⟩
  intro line hline
  rw [show (validateCmd (fromToml (.ttable [("tool", .ttable [("uv", .ttable
    [("required-version", .tstr "9.9")])])]))).stdout =
    ["✅ Конфигурация валидна!", "resolution = None"] from rfl] at hline
  rcases List.mem_cons.mp hline with h1 | hline2
  · subst h1
    rfl
  · rcases List.mem_cons.mp hline2 with h2 | hnil
    · subst h2
      rfl
    · exact absurd hnil (List.not_mem_nil line)

/-- Claim C8, amended.  After any successful `set`, `validate` on the
written file succeeds with exit status 0 — provided the written `tool`
table's entries are all mappings, which `Pyproject`'s `Dict[str, dict]`
type requires — and its output reports the resolved `resolution` value;
when the assigned key is `resolution` itself, the reported value is the
assigned one (for other keys the assigned value is not reported). -/
theorem c8_validate_after_set (p : PathM) (doc : Value) (key value : String)
    (d : PathM) (t : TomlValue) (tfs : List (String × Value))
    (h : (setCmd p doc key value).writes = [(d, t)])
    (htool : vGetPath (fromToml t) ["tool"] = some (.vobj tfs))
    (hdicts : ∀ kv ∈ tfs, kv.2.isObj = true) :
    ∃ m : ToolUvModel,
      validateCmd (fromToml t) =
        ⟨["✅ Конфигурация валидна!",
          "resolution = " ++ (match m.resolution with | some s => s | none => "None")],
         [], 0⟩ ∧
      (validateCmd (fromToml t)).exitCode = 0 ∧
      (key = "resolution" → m.resolution = some value) := by
  obtain ⟨top, toolFs, uvFs, m, hparts, hd, hval, hdump⟩ :=
    setCmd_writes_inv p doc key value d t h
  have hw := fromToml_dumpToml _ _ hdump
  rw [hw] at htool ⊢
  rw [vGetPath_one] at htool
  have hTopN := objGet_objSet_self top "tool"
    (.vobj (objSet toolFs "uv" (.vobj (objSet uvFs key (.vstr value)))))
  rw [hTopN] at htool
  simp only [Option.some.injEq, Value.vobj.injEq] at htool
  have hPy : validatePyproject (.vobj (objSet top "tool" (.vobj (objSet toolFs "uv"
      (.vobj (objSet uvFs key (.vstr value))))))) =
      .ok (objSet toolFs "uv" (.vobj (objSet uvFs key (.vstr value)))) := by
    apply validatePyproject_ok _ _ hTopN
    rw [htool]
    exact hdicts
  have hUv : pyprojectUv (objSet toolFs "uv" (.vobj (objSet uvFs key (.vstr value)))) =
      .ok m :=
    pyprojectUv_ok _ _ m (objGet_objSet_self _ _ _) hval
  have hcmd : validateCmd (.vobj (objSet top "tool" (.vobj (objSet toolFs "uv"
      (.vobj (objSet uvFs key (.vstr value))))))) =
      ⟨["✅ Конфигурация валидна!",
        "resolution = " ++ (match m.resolution with | some s => s | none => "None")],
       [], 0⟩ := by
    unfold validateCmd
    rw [hPy]
    dsimp only
    rw [hUv]
  refine ⟨m, hcmd, by rw [hcmd], ?_⟩
  intro hkey
  subst hkey
  exact (validateToolUv_ok_resolution _ m value hval (objGet_objSet_self _ _ _)).2

/-- Claim C8, witness: setting `resolution = "lowest"` then validating
the written file succeeds and reports the assigned value. -/
theorem c8_validate_after_set_witness :
    (setCmd ⟨"pyproject", ".toml"⟩ (.vobj [("tool", .vobj [("uv", .vobj [])])])
      "resolution" "lowest").writes =
      [(⟨"pyproject", ".toml"⟩, .ttable [("tool", .ttable [("uv", .ttable
        [("resolution", .tstr "lowest")])])])] ∧
    ∃ m : ToolUvModel,
      validateCmd (fromToml (.ttable [("tool", .ttable [("uv", .ttable
          [("resolution", .tstr "lowest")])])])) =
        ⟨["✅ Конфигурация валидна!",
          "resolution = " ++ (match m.resolution with | some s => s | none => "None")],
         [], 0⟩ ∧
      (validateCmd (fromToml (.ttable [("tool", .ttable [("uv", .ttable
          [("resolution", .tstr "lowest")])])]))).exitCode = 0 ∧
      ("resolution" = "resolution" → m.resolution = some "lowest") :=
  ⟨rfl, c8_validate_after_set ⟨"pyproject", ".toml"⟩
    (.vobj [("tool", .vobj [("uv", .vobj [])])]) "resolution" "lowest"
    ⟨"pyproject", ".toml"⟩ _ [("uv", .vobj [("resolution", .vstr "lowest")])]
    rfl rfl (by decide)⟩

end UvConfig
